import Mathlib

/-!
Verification of the call-session core (`crates/call/src/room.rs`).

The Rust source is shallowly embedded below.  Collection types are modelled
by lists: a `HashSet` becomes a duplicate-free list (`memb`/`insertId`), a
`BTreeMap` becomes an association list manipulated through `mapLookup`,
`mapUpdate` (for `get_mut`) and `mapInsert`, and a `Vec` stays a plain list.
Asynchronous completions (the roster-merge closure, the publish-track
continuations, the reconnection supervisor) are embedded as pure functions
over the room state, taking the outcome of the awaited external operation
(server response, engine result, connection-status stream) as an explicit
argument.  Events emitted through `cx.emit` are collected in a list.
-/

namespace ZedCall

/-- Decidable list membership, used to model `HashSet`/`HashMap` lookups. -/
def memb {α : Type} [DecidableEq α] (x : α) : List α → Bool
  | [] => false
  | y :: l => if y = x then true else memb x l

/-- Duplicate removal, modelling the contents of a `HashSet` collected from a
list (iteration order of the hash set is unspecified in Rust; we keep the
last occurrence of each element). -/
def dedupL {α : Type} [DecidableEq α] : List α → List α
  | [] => []
  | x :: l => if memb x l then dedupL l else x :: dedupL l

/-- `HashSet::insert` for user-id sets. -/
def insertId (x : Nat) (l : List Nat) : List Nat :=
  if memb x l then l else l ++ [x]

/-- `HashMap::insert` keyed by track sid (the stored handle is not modelled,
so only the key set is tracked). -/
def insertStr (x : String) (l : List String) : List String :=
  if memb x l then l else l ++ [x]

/-- `BTreeMap::get`. -/
def mapLookup {α : Type} (k : Nat) : List (Nat × α) → Option α
  | [] => none
  | (k', v) :: rest => if k' = k then some v else mapLookup k rest

/-- An in-place modification obtained through `BTreeMap::get_mut`. -/
def mapUpdate {α : Type} (k : Nat) (f : α → α) : List (Nat × α) → List (Nat × α)
  | [] => []
  | (k', v) :: rest => if k' = k then (k', f v) :: rest else (k', v) :: mapUpdate k f rest

/-- `BTreeMap::insert` (the map is kept ordered by key). -/
def mapInsert {α : Type} (k : Nat) (v : α) : List (Nat × α) → List (Nat × α)
  | [] => [(k, v)]
  | (k', v') :: rest =>
    if k < k' then (k, v) :: (k', v') :: rest
    else if k = k' then (k, v) :: rest
    else (k', v') :: mapInsert k v rest

/-- `Vec::iter().position`. -/
def position {α : Type} (p : α → Bool) : List α → Option Nat
  | [] => none
  | a :: l => if p a then some 0 else (position p l).map (· + 1)

/-- `Vec::swap_remove`: the removed slot is filled with the last element. -/
def swapRemove {α : Type} (l : List α) (ix : Nat) : List α :=
  match l.getLast? with
  | none => l
  | some last => (l.set ix last).dropLast

/-- `RoomStatus` (room.rs). -/
inductive RoomStatus
  | Online
  | Rejoining
  | Offline
deriving Repr, DecidableEq

def RoomStatus.is_offline : RoomStatus → Bool
  | RoomStatus.Offline => true
  | _ => false

def RoomStatus.is_online : RoomStatus → Bool
  | RoomStatus.Online => true
  | _ => false

/-- `participant::ParticipantLocation`; the variants are the ones built in
`Room::set_location` and parsed by `from_proto`. -/
inductive ParticipantLocation
  | SharedProject (id : Nat)
  | UnsharedProject
  | External
deriving Repr, DecidableEq

/-- `proto::ParticipantProject` (id plus worktree root names). -/
structure ParticipantProject where
  id : Nat
  worktree_root_names : List String
deriving Repr, DecidableEq

/-- `client::User`; only the numeric id is relevant to the session core. -/
structure User where
  id : Nat
deriving Repr, DecidableEq

/-- `Event` (room.rs); the `owner` of `RemoteProjectShared` is kept as a
user id. -/
inductive Event
  | ParticipantLocationChanged (participant_id : Nat)
  | RemoteVideoTracksChanged (participant_id : Nat)
  | RemoteAudioTracksChanged (participant_id : Nat)
  | RemoteProjectShared (owner : Nat) (project_id : Nat) (worktree_root_names : List String)
  | RemoteProjectUnshared (project_id : Nat)
  | Left
deriving Repr, DecidableEq

/-- One remote audio track publication held by the media engine
(`live_kit_client`): publisher identity, track sid, the `enabled` flag
toggled by deafening, and the publication's mute state. -/
structure AudioPublication where
  publisher_id : Nat
  sid : String
  enabled : Bool
  muted : Bool
deriving Repr, DecidableEq

/-- The engine-side state of `live_kit_client::Room` that room.rs interacts
with: already-subscribed remote tracks (used to hydrate newly visible
participants) and the log of locally unpublished track publications. -/
structure EngineRoom where
  video_tracks : List (Nat × String)
  audio_publications : List AudioPublication
  unpublished : List Nat
deriving Repr, DecidableEq

/-- `Room::unpublish_track` on the engine handle. -/
def EngineRoom.unpublish_track (e : EngineRoom) (pub : Nat) : EngineRoom :=
  { e with unpublished := e.unpublished ++ [pub] }

/-- `publication.set_enabled(b)` applied to every audio publication of one
publisher (`Room::toggle_deafen` iterates the publications per participant). -/
def EngineRoom.set_enabled_for (e : EngineRoom) (uid : Nat) (b : Bool) : EngineRoom :=
  { e with audio_publications :=
      (e.audio_publications.map fun p =>
        if p.publisher_id = uid then { p with enabled := b } else p) }

/-- `participant::RemoteParticipant`, with exactly the fields constructed in
`Room::apply_room_update`; track maps keep only their sid keys. -/
structure RemoteParticipant where
  user : User
  peer_id : Nat
  projects : List ParticipantProject
  location : ParticipantLocation
  muted : Bool
  speaking : Bool
  video_tracks : List String
  audio_tracks : List String
deriving Repr, DecidableEq

/-- `participant::LocalParticipant`: the shared-project list and the active
project (a weak project handle, modelled by an optional project key). -/
structure LocalParticipant where
  projects : List ParticipantProject
  active_project : Option Nat
deriving Repr, DecidableEq

/-- `LocalTrack` (room.rs): the tri-state of one local media kind.  The
track publication handle is modelled by a numeric id. -/
inductive LocalTrack
  | None
  | Pending (publish_id : Nat) (muted : Bool)
  | Published (track_publication : Nat) (muted : Bool)
deriving Repr, DecidableEq

/-- The mute flag of a local track, if one exists. -/
def LocalTrack.muted_flag : LocalTrack → Option Bool
  | LocalTrack.None => none
  | LocalTrack.Pending _ m => some m
  | LocalTrack.Published _ m => some m

/-- `LiveKitRoom` (room.rs). -/
structure LiveKitRoom where
  room : EngineRoom
  screen_track : LocalTrack
  microphone_track : LocalTrack
  muted_by_user : Bool
  deafened : Bool
  speaking : Bool
  next_publish_id : Nat
deriving Repr, DecidableEq

/-- A locally open `project::Project` as seen by `Room::share_project`:
only its optional remote id matters there. -/
structure Project where
  remote_id : Option Nat
deriving Repr, DecidableEq

/-- `Room` (room.rs).  Weak project handles are modelled by remote project
ids; `pending_room_update`, `maintain_connection` and `subscriptions` model
whether the corresponding task/handler is present. -/
structure Room where
  id : Nat
  channel_id : Option Nat
  live_kit : Option LiveKitRoom
  status : RoomStatus
  shared_projects : List Nat
  joined_projects : List Nat
  local_participant : LocalParticipant
  remote_participants : List (Nat × RemoteParticipant)
  pending_participants : List User
  participant_user_ids : List Nat
  pending_call_count : Nat
  leave_when_empty : Bool
  client_user_id : Nat
  follows_by_leader_id_project_id : List ((Nat × Option Nat) × List Nat)
  pending_room_update : Bool
  maintain_connection : Bool
  subscriptions : Bool
deriving Repr, DecidableEq

/-- `proto::Participant` as consumed by `Room::apply_room_update`. -/
structure ProtoParticipant where
  user_id : Nat
  peer_id : Option Nat
  projects : List ParticipantProject
  location : Option ParticipantLocation
deriving Repr, DecidableEq

/-- `proto::Follower`. -/
structure ProtoFollower where
  project_id : Option Nat
  leader_id : Option Nat
  follower_id : Option Nat
deriving Repr, DecidableEq

/-- `proto::Room`: the server-pushed snapshot.  Pending participants are
kept as the user ids the code extracts from them. -/
structure ProtoRoom where
  participants : List ProtoParticipant
  pending_participants : List Nat
  followers : List ProtoFollower
deriving Repr, DecidableEq

/-- `Room::new` (the fields assigned in the constructor). -/
def Room.new (id : Nat) (channel_id : Option Nat) (live_kit : Option LiveKitRoom)
    (client_user_id : Nat) : Room :=
  { id := id
    channel_id := channel_id
    live_kit := live_kit
    status := RoomStatus.Online
    shared_projects := []
    joined_projects := []
    local_participant := { projects := [], active_project := none }
    remote_participants := []
    pending_participants := []
    participant_user_ids := []
    pending_call_count := 0
    leave_when_empty := false
    client_user_id := client_user_id
    follows_by_leader_id_project_id := []
    pending_room_update := false
    maintain_connection := true
    subscriptions := true }

/-- The `LiveKitRoom` constructed in `Room::new` around a fresh engine room. -/
def LiveKitRoom.new (engine : EngineRoom) : LiveKitRoom :=
  { room := engine
    screen_track := LocalTrack.None
    microphone_track := LocalTrack.None
    muted_by_user := false
    deafened := false
    speaking := false
    next_publish_id := 0 }

/-- `Room::should_leave`. -/
def Room.should_leave (r : Room) : Bool :=
  r.leave_when_empty && !r.pending_room_update && r.pending_participants.isEmpty &&
    r.remote_participants.isEmpty && decide (r.pending_call_count = 0)

/-- `Room::clear_state`: unconditionally drops every piece of session state
(shared projects are unshared and joined projects closed on the project
side, which is outside this room model). -/
def Room.clear_state (r : Room) : Room :=
  { r with
    shared_projects := []
    joined_projects := []
    status := RoomStatus.Offline
    remote_participants := []
    pending_participants := []
    participant_user_ids := []
    subscriptions := false
    live_kit := none
    pending_room_update := false
    maintain_connection := false }

/-- `Room::leave_internal`: fails when already offline, otherwise clears all
local state immediately (the server round trip happens afterwards and is not
part of the state change).  The boolean is `true` on success. -/
def Room.leave_internal (r : Room) : Room × Bool :=
  if r.status.is_offline then (r, false) else (r.clear_state, true)

/-- `Room::leave`: emits `Event::Left` (and notifies) before delegating to
`leave_internal`.  Returns the new state, the emitted events and whether the
leave succeeded. -/
def Room.leave (r : Room) : Room × List Event × Bool :=
  ((r.leave_internal).1, [Event.Left], (r.leave_internal).2)

/-- The synchronous part of `Room::call`: fails when offline, otherwise
increments `pending_call_count` before the request is sent. -/
def Room.call_start (r : Room) : Room × Bool :=
  if r.status.is_offline then (r, false)
  else ({ r with pending_call_count := r.pending_call_count + 1 }, true)

/-- The completion of `Room::call`'s spawned continuation: decrement
`pending_call_count` and auto-leave when `should_leave` holds. -/
def Room.call_completed (r : Room) : Room × List Event :=
  let r' := { r with pending_call_count := r.pending_call_count - 1 }
  if r'.should_leave then ((r'.leave).1, (r'.leave).2.1)
  else (r', [])

/-- `Room::remote_video_track_updated` for a `Subscribed` update: the
publisher id parses to the user id, an unknown participant is an error that
is logged and dropped. -/
def Room.subscribe_video (r : Room) (publisher : Nat) (sid : String) : Room × List Event :=
  match mapLookup publisher r.remote_participants with
  | none => (r, [])
  | some p =>
    ({ r with remote_participants :=
        (mapUpdate publisher (fun q => { q with video_tracks := insertStr sid q.video_tracks })
          r.remote_participants) },
     [Event.RemoteVideoTracksChanged p.peer_id])

/-- `Room::remote_audio_track_updated` for a `Subscribed` update. -/
def Room.subscribe_audio (r : Room) (publisher : Nat) (sid : String) (pub_muted : Bool) :
    Room × List Event :=
  match mapLookup publisher r.remote_participants with
  | none => (r, [])
  | some p =>
    ({ r with remote_participants :=
        (mapUpdate publisher
          (fun q => { q with audio_tracks := insertStr sid q.audio_tracks, muted := pub_muted })
          r.remote_participants) },
     [Event.RemoteAudioTracksChanged p.peer_id])

/-- One step of the video hydration fold: replay a `Subscribed` update and
append its events. -/
def videoHydrateStep (acc : Room × List Event) (t : Nat × String) : Room × List Event :=
  ((acc.1.subscribe_video t.1 t.2).1, acc.2 ++ (acc.1.subscribe_video t.1 t.2).2)

/-- One step of the audio hydration fold. -/
def audioHydrateStep (acc : Room × List Event) (p : AudioPublication) : Room × List Event :=
  ((acc.1.subscribe_audio p.publisher_id p.sid p.muted).1,
   acc.2 ++ (acc.1.subscribe_audio p.publisher_id p.sid p.muted).2)

/-- The hydration of a newly inserted participant in
`Room::apply_room_update`: the engine's already-subscribed tracks for that
user are replayed as `Subscribed` updates. -/
def Room.hydrate (r : Room) (events : List Event) (uid : Nat) : Room × List Event :=
  match r.live_kit with
  | none => (r, events)
  | some lk =>
    let vids := lk.room.video_tracks.filter fun t => t.1 = uid
    let step₁ := vids.foldl videoHydrateStep (r, events)
    let auds := lk.room.audio_publications.filter fun p => p.publisher_id = uid
    auds.foldl audioHydrateStep step₁

/-- One iteration of the remote-participant merge loop in the closure of
`Room::apply_room_update` (lines 650-760 of room.rs). -/
def Room.applyParticipant (this : Room) (events : List Event) (p : ProtoParticipant)
    (user : User) : Room × List Event :=
  match p.peer_id with
  | none => (this, events)
  | some peer_id =>
    let this := { this with participant_user_ids := insertId p.user_id this.participant_user_ids }
    let old_projects :=
      dedupL ((mapLookup p.user_id this.remote_participants).elim []
        (fun ex => ex.projects.map (·.id)))
    let new_projects := dedupL (p.projects.map (·.id))
    let sharedEvents :=
      (p.projects.filter fun pr => !(memb pr.id old_projects)).map
        (fun pr => Event.RemoteProjectShared user.id pr.id pr.worktree_root_names)
    let unsharedIds := old_projects.filter fun i => !(memb i new_projects)
    let this := { this with
      joined_projects := this.joined_projects.filter fun jp => !(memb jp unsharedIds) }
    let unsharedEvents := unsharedIds.map Event.RemoteProjectUnshared
    let location := p.location.getD ParticipantLocation.External
    match mapLookup p.user_id this.remote_participants with
    | some existing =>
      let locEvents :=
        if location = existing.location then []
        else [Event.ParticipantLocationChanged peer_id]
      let this := { this with remote_participants :=
        (mapUpdate p.user_id
          (fun ex => { ex with projects := p.projects, peer_id := peer_id, location := location })
          this.remote_participants) }
      (this, events ++ sharedEvents ++ unsharedEvents ++ locEvents)
    | none =>
      let newP : RemoteParticipant :=
        { user := user
          peer_id := peer_id
          projects := p.projects
          location := location
          muted := true
          speaking := false
          video_tracks := []
          audio_tracks := [] }
      let this := { this with remote_participants :=
        (mapInsert p.user_id newP this.remote_participants) }
      Room.hydrate this (events ++ sharedEvents ++ unsharedEvents) p.user_id

/-- The full remote-participant merge loop over the zipped
(participant, resolved user) pairs. -/
def Room.applyParticipantList (this : Room) (events : List Event) :
    List (ProtoParticipant × User) → Room × List Event
  | [] => (this, events)
  | (p, u) :: rest =>
    Room.applyParticipantList (Room.applyParticipant this events p u).1
      (Room.applyParticipant this events p u).2 rest

/-- `remote_participants.retain(...)` at the end of the merge: participants
absent from the fresh snapshot are removed, emitting `RemoteProjectUnshared`
for each of their projects. -/
def retainParticipants (puids : List Nat) :
    List (Nat × RemoteParticipant) → List (Nat × RemoteParticipant) × List Event
  | [] => ([], [])
  | (k, p) :: rest =>
    if memb k puids then
      ((k, p) :: (retainParticipants puids rest).1, (retainParticipants puids rest).2)
    else
      ((retainParticipants puids rest).1,
       (p.projects.map fun pr => Event.RemoteProjectUnshared pr.id) ++
         (retainParticipants puids rest).2)

/-- Duplicate-suppressing push into a follower list. -/
def followListInsert (fo : Nat) (l : List Nat) : List Nat :=
  if memb fo l then l else l ++ [fo]

/-- `follows_by_leader_id_project_id.entry(..).or_insert(..)` plus the push. -/
def assocUpdate (key : Nat × Option Nat) (fo : Nat) :
    List ((Nat × Option Nat) × List Nat) → List ((Nat × Option Nat) × List Nat)
  | [] => [(key, followListInsert fo [])]
  | (k, v) :: rest =>
    if k = key then (k, followListInsert fo v) :: rest
    else (k, v) :: assocUpdate key fo rest

/-- The follower-map rebuild in the merge closure: edges with a missing
leader or follower are dropped. -/
def buildFollows : List ProtoFollower → List ((Nat × Option Nat) × List Nat) →
    List ((Nat × Option Nat) × List Nat)
  | [], acc => acc
  | f :: rest, acc =>
    match f.leader_id, f.follower_id with
    | some l, some fo => buildFollows rest (assocUpdate (l, f.project_id) fo acc)
    | _, _ => buildFollows rest acc

/-- The local-participant extraction at the top of `Room::apply_room_update`
(`position` + `swap_remove`). -/
def extractLocal (uid : Nat) (ps : List ProtoParticipant) :
    Option ProtoParticipant × List ProtoParticipant :=
  match position (fun p => p.user_id = uid) ps with
  | none => (none, ps)
  | some ix => (ps.get? ix, swapRemove ps ix)

/-- `Room::apply_room_update` together with its spawned closure, up to and
including `pending_room_update.take()` but before the auto-leave check.
`remoteRes`/`pendingRes` say whether the respective `UserStore::get_users`
batch resolved; on failure that merge step is skipped (`log_err`).  A
resolved user carries exactly the requested id. -/
def Room.apply_room_update_core (r : Room) (snap : ProtoRoom) (remoteRes pendingRes : Bool) :
    Room × List Event :=
  let participants := (extractLocal r.client_user_id snap.participants).2
  let this := { r with pending_room_update := true }
  let this := { this with participant_user_ids := [] }
  let this := { this with local_participant :=
    { this.local_participant with projects :=
        (match (extractLocal r.client_user_id snap.participants).1 with
         | some lp => lp.projects
         | none => []) } }
  let step :=
    if remoteRes then
      let pairs := participants.map fun p => (p, User.mk p.user_id)
      let out := Room.applyParticipantList this [] pairs
      let ret := retainParticipants out.1.participant_user_ids out.1.remote_participants
      ({ out.1 with remote_participants := ret.1 }, out.2 ++ ret.2)
    else (this, [])
  let this := step.1
  let events := step.2
  let this :=
    if pendingRes then
      { this with
        pending_participants := snap.pending_participants.map User.mk
        participant_user_ids :=
          (snap.pending_participants.foldl (fun acc i => insertId i acc)
            this.participant_user_ids) }
    else this
  let this := { this with
    follows_by_leader_id_project_id := buildFollows snap.followers [] }
  let this := { this with pending_room_update := false }
  (this, events)

/-- `Room::apply_room_update` including the final auto-leave check. -/
def Room.apply_room_update (r : Room) (snap : ProtoRoom) (remoteRes pendingRes : Bool) :
    Room × List Event :=
  let core := r.apply_room_update_core snap remoteRes pendingRes
  if core.1.should_leave then ((core.1.leave).1, core.2 ++ (core.1.leave).2.1)
  else core

/-- `Room::check_invariants` (the test-build assertions), as a boolean. -/
def Room.check_invariants (r : Room) : Bool :=
  (r.remote_participants.all fun kp =>
    memb kp.2.user.id r.participant_user_ids && decide (kp.2.user.id ≠ r.client_user_id)) &&
  (r.pending_participants.all fun u =>
    memb u.id r.participant_user_ids && decide (u.id ≠ r.client_user_id)) &&
  decide (r.participant_user_ids.length =
    r.remote_participants.length + r.pending_participants.length)

/-- `Room::is_screen_sharing`. -/
def Room.is_screen_sharing (r : Room) : Bool :=
  match r.live_kit with
  | none => false
  | some lk =>
    match lk.screen_track with
    | LocalTrack.None => false
    | _ => true

/-- `Room::is_sharing_mic`. -/
def Room.is_sharing_mic (r : Room) : Bool :=
  match r.live_kit with
  | none => false
  | some lk =>
    match lk.microphone_track with
    | LocalTrack.None => false
    | _ => true

/-- `Room::is_muted`; `mute_on_join` is the settings value read from the
app context. -/
def Room.is_muted (r : Room) (mute_on_join : Bool) : Bool :=
  match r.live_kit with
  | none => false
  | some lk =>
    match lk.microphone_track with
    | LocalTrack.None => mute_on_join
    | LocalTrack.Pending _ m => m
    | LocalTrack.Published _ m => m

/-- The synchronous part of `Room::share_microphone`: reject when offline or
already sharing, otherwise allocate a publish id and move to `Pending`.  The
returned string is the error, if any. -/
def Room.share_microphone (r : Room) : Room × Option String :=
  if r.status.is_offline then (r, some "room is offline")
  else if r.is_sharing_mic then (r, some "microphone was already shared")
  else
    match r.live_kit with
    | none => (r, some "live-kit was not initialized")
    | some lk =>
      ({ r with live_kit := some ({ lk with
          microphone_track := LocalTrack.Pending lk.next_publish_id false
          next_publish_id := lk.next_publish_id + 1 }) }, none)

/-- The synchronous part of `Room::share_screen` (identical shape). -/
def Room.share_screen (r : Room) : Room × Option String :=
  if r.status.is_offline then (r, some "room is offline")
  else if r.is_screen_sharing then (r, some "screen was already shared")
  else
    match r.live_kit with
    | none => (r, some "live-kit was not initialized")
    | some lk =>
      ({ r with live_kit := some ({ lk with
          screen_track := LocalTrack.Pending lk.next_publish_id false
          next_publish_id := lk.next_publish_id + 1 }) }, none)

/-- The completion logic shared by `share_microphone` and `share_screen`
(room.rs lines 1185-1227 and 1271-1316): given the track state found at
completion time, the publish id captured at request time and the engine
result (`some pub` on success), it returns the new track state, whether the
publication was immediately unpublished, and whether the continuation
reports success. -/
def publish_completion (track : LocalTrack) (publish_id : Nat) (result : Option Nat) :
    LocalTrack × Bool × Bool :=
  let canceled :=
    match track with
    | LocalTrack.Pending cur _ => decide (cur ≠ publish_id)
    | _ => true
  let muted :=
    match track with
    | LocalTrack.Pending _ m => m
    | _ => false
  match result with
  | some pub =>
    if canceled then (track, true, true)
    else (LocalTrack.Published pub muted, false, true)
  | none =>
    if canceled then (track, false, true)
    else (LocalTrack.None, false, false)

/-- Whether a track is `Pending` with exactly the given publish id (the
"not superseded" condition re-checked at completion time). -/
def isPendingWith (t : LocalTrack) (pid : Nat) : Bool :=
  match t with
  | LocalTrack.Pending cur _ => decide (cur = pid)
  | _ => false

/-- The microphone-publish continuation applied to a `LiveKitRoom`. -/
def LiveKitRoom.mic_publish_done (lk : LiveKitRoom) (pid : Nat) (res : Option Nat) :
    LiveKitRoom × Bool :=
  let out := publish_completion lk.microphone_track pid res
  let engine :=
    match res, out.2.1 with
    | some pub, true => lk.room.unpublish_track pub
    | _, _ => lk.room
  ({ lk with microphone_track := out.1, room := engine }, out.2.2)

/-- The screen-publish continuation applied to a `LiveKitRoom`. -/
def LiveKitRoom.screen_publish_done (lk : LiveKitRoom) (pid : Nat) (res : Option Nat) :
    LiveKitRoom × Bool :=
  let out := publish_completion lk.screen_track pid res
  let engine :=
    match res, out.2.1 with
    | some pub, true => lk.room.unpublish_track pub
    | _, _ => lk.room
  ({ lk with screen_track := out.1, room := engine }, out.2.2)

/-- `LiveKitRoom::set_mute`: clears `muted_by_user` when unmuting (before
the track check), errors when no microphone track exists, otherwise writes
the new mute flag and returns the previous one. -/
def LiveKitRoom.set_mute (lk₀ : LiveKitRoom) (should_mute : Bool) :
    LiveKitRoom × Option Bool :=
  let lk := if should_mute then lk₀ else { lk₀ with muted_by_user := false }
  match lk.microphone_track with
  | LocalTrack.None => (lk, none)
  | LocalTrack.Pending pid m =>
    ({ lk with microphone_track := LocalTrack.Pending pid should_mute }, some m)
  | LocalTrack.Published pub m =>
    ({ lk with microphone_track := LocalTrack.Published pub should_mute }, some m)

/-- `Room::toggle_deafen`.  The boolean result is `true` when the call
succeeds; on the `set_mute` error path the already-flipped `deafened` flag
persists and the subscription loop is never reached (`?` propagation). -/
def Room.toggle_deafen (r : Room) : Room × Bool :=
  match r.live_kit with
  | none => (r, false)
  | some lk₀ =>
    let lk := { lk₀ with deafened := !lk₀.deafened }
    if lk.deafened || !lk.muted_by_user then
      match lk.set_mute lk.deafened with
      | (lk', none) => ({ r with live_kit := some lk' }, false)
      | (lk', some _) =>
        let engine := r.remote_participants.foldl
          (fun e kp => EngineRoom.set_enabled_for e kp.2.user.id (!lk'.deafened)) lk'.room
        ({ r with live_kit := some { lk' with room := engine } }, true)
    else
      let engine := r.remote_participants.foldl
        (fun e kp => EngineRoom.set_enabled_for e kp.2.user.id (!lk.deafened)) lk.room
      ({ r with live_kit := some { lk with room := engine } }, true)

/-- `Room::toggle_mute`.  The boolean result is `true` when the call
succeeds.  A `None` microphone track delegates to `share_microphone`;
otherwise the mute flag flips and `muted_by_user` records it, and unmuting
while deafened cascades into `toggle_deafen` (whose own result is
detached/ignored). -/
def Room.toggle_mute (r : Room) (mute_on_join : Bool) : Room × Bool :=
  let should_mute := !r.is_muted mute_on_join
  match r.live_kit with
  | none => (r, false)
  | some lk =>
    match lk.microphone_track with
    | LocalTrack.None =>
      let out := r.share_microphone
      (out.1, out.2.isNone)
    | _ =>
      let sm := lk.set_mute should_mute
      match sm.2 with
      | none => ({ r with live_kit := some sm.1 }, false)
      | some old_muted =>
        let lk'' := { sm.1 with muted_by_user := should_mute }
        let r' := { r with live_kit := some lk'' }
        if old_muted && lk''.deafened then ((r'.toggle_deafen).1, true)
        else (r', true)

/-- `Room::unshare_screen`: offline is an error; then the screen track is
`mem::take`n and acted on per its tri-state.  Returns the new room, the
error (if any) and the unpublished track publication (if any). -/
def Room.unshare_screen (r : Room) : Room × Option String × Option Nat :=
  if r.status.is_offline then (r, some "room is offline", none)
  else
    match r.live_kit with
    | none => (r, some "live-kit was not initialized", none)
    | some lk =>
      match lk.screen_track with
      | LocalTrack.None =>
        ({ r with live_kit := some { lk with screen_track := LocalTrack.None } },
         some "screen was not shared", none)
      | LocalTrack.Pending _ _ =>
        ({ r with live_kit := some { lk with screen_track := LocalTrack.None } }, none, none)
      | LocalTrack.Published pub _ =>
        ({ r with live_kit := some ({ lk with
            screen_track := LocalTrack.None
            room := lk.room.unpublish_track pub }) }, none, some pub)

/-- The synchronous part of `Room::share_project`: a project that already
has a remote id returns it immediately; otherwise a `ShareProject` request
is issued (the response handling is asynchronous).  Returns the room, a
flag telling whether a server request was sent, and the immediate result. -/
def Room.share_project (r : Room) (p : Project) : Room × Bool × Option Nat :=
  match p.remote_id with
  | some pid => (r, false, some pid)
  | none => (r, true, none)

/-- The client connection status as observed by
`Room::maintain_connection` (`is_connected` / `is_signed_out`). -/
inductive ConnStatus
  | connected
  | disconnected
  | signedOut
deriving Repr, DecidableEq

def ConnStatus.is_connected : ConnStatus → Bool
  | ConnStatus.connected => true
  | _ => false

def ConnStatus.is_signed_out : ConnStatus → Bool
  | ConnStatus.signedOut => true
  | _ => false

/-- `RECONNECT_TIMEOUT` in seconds (`Duration::from_secs(30)`). -/
def RECONNECT_TIMEOUT : Nat := 30

/-- The inner `client_reconnection` future of `Room::maintain_connection`:
`remaining` is the retry budget, `cur` the currently observed status,
`future` the statuses delivered by later stream wake-ups, `rejoins` the
outcomes of successive rejoin requests.  Returns `some b` when the future
completes with `b` before the status stream is exhausted, `none` when it is
still suspended (so the 30-second timer wins the race), together with the
number of rejoin attempts made. -/
def client_reconnection (remaining : Nat) (cur : ConnStatus) (future : List ConnStatus)
    (rejoins : List Bool) : Option Bool × Nat :=
  if remaining = 0 then (some false, 0)
  else if cur.is_connected then
    match rejoins with
    | [] => (none, 0)
    | ok :: rest =>
      if ok then (some true, 1)
      else
        match future with
        | [] => (none, 1)
        | s :: fs =>
          let out := client_reconnection (remaining - 1) s fs rest
          (out.1, out.2 + 1)
  else if cur.is_signed_out then (some false, 0)
  else
    match future with
    | [] => (none, 0)
    | s :: fs => client_reconnection remaining s fs rejoins

/-- The terminal error produced by `Room::maintain_connection`. -/
def reconnectErrorMessage : String :=
  "can't reconnect to room: client failed to re-establish connection"

/-- What `Room::maintain_connection` does once the race between
`client_reconnection` and the 30-second timer is decided: `some true`
returns to the outer watch loop, any other outcome leaves the room and
surfaces the terminal error. -/
def Room.maintain_connection_cycle (r : Room) (raceOutcome : Option Bool) :
    Room × List Event × Option String :=
  match raceOutcome with
  | some true => (r, [], none)
  | _ => ((r.leave).1, (r.leave).2.1, some reconnectErrorMessage)

/-- The detection of a disconnect in `Room::maintain_connection`: the
status drops to `Rejoining`. -/
def Room.on_disconnect (r : Room) : Room :=
  { r with status := RoomStatus.Rejoining }

/-- The successful-rejoin response handler of `Room::rejoin`: the status is
restored to `Online` and the fresh snapshot is applied. -/
def Room.rejoin_apply (r : Room) (snap : ProtoRoom) (remoteRes pendingRes : Bool) :
    Room × List Event :=
  ({ r with status := RoomStatus.Online }).apply_room_update snap remoteRes pendingRes

/-- The snapshot entry a server would send for an existing roster entry:
same user id, same peer id, same projects, same location. -/
def rosterEntryToProto (kp : Nat × RemoteParticipant) : ProtoParticipant :=
  { user_id := kp.1
    peer_id := some kp.2.peer_id
    projects := kp.2.projects
    location := some kp.2.location }

/-- A server snapshot identical to the session's current roster (remote
participants and pending participants unchanged). -/
def identicalSnapshot (r : Room) (followers : List ProtoFollower) : ProtoRoom :=
  { participants := r.remote_participants.map rosterEntryToProto
    pending_participants := r.pending_participants.map User.id
    followers := followers }

/-- The state a merge of an identical snapshot produces (before the
auto-leave check): only the bookkeeping fields move — the local projects
are cleared (no local entry in the snapshot), `participant_user_ids` is
rebuilt, the follower map is rebuilt and the in-flight marker is taken. -/
def identicalMerged (r : Room) (followers : List ProtoFollower) : Room :=
  { r with
      local_participant := { r.local_participant with projects := [] }
      participant_user_ids :=
        ((r.pending_participants.map User.id).foldl (fun acc i => insertId i acc)
          (r.remote_participants.foldl (fun acc kp => insertId kp.1 acc) []))
      follows_by_leader_id_project_id := buildFollows followers []
      pending_room_update := false }

/-! Concrete fixtures used by the claim evaluations and witnesses. -/

/-- A snapshot containing a single remote participant, user 2 on peer 20. -/
def snapA : ProtoRoom :=
  { participants :=
      [{ user_id := 2, peer_id := some 20, projects := [], location := some ParticipantLocation.External }]
    pending_participants := []
    followers := [] }

/-- A freshly created room for client user 1. -/
def roomA0 : Room := Room.new 1 none none 1

/-- `roomA0` after merging `snapA` with both identity resolutions succeeding. -/
def roomA1 : Room := (roomA0.apply_room_update snapA true true).1

/-- `roomA1` after a merge whose remote identity resolution failed. -/
def roomA2 : Room := (roomA1.apply_room_update snapA false true).1

/-- An already-offline room. -/
def roomOff : Room := { Room.new 3 none none 1 with status := RoomStatus.Offline }

/-- Another already-offline room (channel-backed this time). -/
def roomOffW : Room := { Room.new 4 (some 7) none 2 with status := RoomStatus.Offline }

/-- A leave-on-empty room with one in-flight outbound call. -/
def roomCW : Room :=
  { Room.new 11 none none 1 with leave_when_empty := true, pending_call_count := 1 }

/-- Remote participant fixture: user 2 on peer 20 sharing project 5. -/
def partB : RemoteParticipant :=
  { user := { id := 2 }
    peer_id := 20
    projects := [{ id := 5, worktree_root_names := ["w"] }]
    location := ParticipantLocation.External
    muted := true
    speaking := false
    video_tracks := []
    audio_tracks := [] }

/-- An engine room with one enabled audio publication from user 2. -/
def engineB : EngineRoom :=
  { video_tracks := []
    audio_publications := [{ publisher_id := 2, sid := "t1", enabled := true, muted := false }]
    unpublished := [] }

/-- A live-kit state with no microphone track. -/
def lkNoMic : LiveKitRoom := LiveKitRoom.new engineB

/-- A room (local user 1) with remote participant 2 and no local mic track. -/
def roomC7 : Room :=
  { Room.new 9 none (some lkNoMic) 1 with
      remote_participants := [(2, partB)], participant_user_ids := [2] }

/-- Same room but with a published, unmuted microphone track. -/
def lkMic : LiveKitRoom := { lkNoMic with microphone_track := LocalTrack.Published 1 false }

def roomC7b : Room := { roomC7 with live_kit := some lkMic }

/-- A live-kit state with a published screen track (publication 4). -/
def lkScr : LiveKitRoom :=
  { LiveKitRoom.new { video_tracks := [], audio_publications := [], unpublished := [] } with
      screen_track := LocalTrack.Published 4 false }

def roomScr : Room := Room.new 6 none (some lkScr) 1

/-- An empty leave-on-empty room (used against the identical-snapshot claim). -/
def roomEmptyLWE : Room := { Room.new 12 none none 1 with leave_when_empty := true }

/-- A room holding exactly remote participant 2 (identical-snapshot witness). -/
def roomIdent : Room :=
  { Room.new 13 none none 1 with
      remote_participants := [(2, partB)], participant_user_ids := [2] }

/-! ### Claim C1 -/

/-- C1: "For every reachable session state, the size of participant_user_ids
equals the number of remote_participants plus the number of
pending_participants, ...".  The code violates its own `check_invariants`
assertion on a reachable state: starting from a fresh room, one successful
merge adds remote participant 2 (invariants hold), and a second merge whose
remote identity resolution fails clears `participant_user_ids` while
retaining `remote_participants`, so the set has 0 elements against 1 + 0
roster entries. -/
theorem C1_invariant_violation :
    roomA1.check_invariants = true ∧
    roomA2.remote_participants.length = 1 ∧
    roomA2.pending_participants.length = 0 ∧
    roomA2.participant_user_ids.length = 0 ∧
    roomA2.check_invariants = false := by decide

/-! ### Claim C4 -/

/-- C4: a publish attempt whose track state is no longer `Pending` with the
captured publish id leaves the track state unchanged and immediately
unpublishes an engine success; a non-superseded attempt transitions to
`Published` with the pending mute flag on success and to `None` on failure;
the mic/screen continuations act on their respective track fields through
this logic. -/
theorem C4_publish_lifecycle :
    (∀ track pid res, isPendingWith track pid = false →
       (publish_completion track pid res).1 = track ∧
       (∀ pub, res = some pub → (publish_completion track pid res).2.1 = true) ∧
       (publish_completion track pid res).2.2 = true) ∧
    (∀ pid m pub,
       publish_completion (LocalTrack.Pending pid m) pid (some pub) =
         (LocalTrack.Published pub m, false, true)) ∧
    (∀ pid m,
       publish_completion (LocalTrack.Pending pid m) pid none =
         (LocalTrack.None, false, false)) ∧
    (∀ lk pid res,
       (LiveKitRoom.mic_publish_done lk pid res).1.microphone_track =
         (publish_completion lk.microphone_track pid res).1 ∧
       (LiveKitRoom.screen_publish_done lk pid res).1.screen_track =
         (publish_completion lk.screen_track pid res).1) := by
  refine ⟨?_, ?_, ?_, ?_⟩
  · intro track pid res h
    cases track <;> cases res <;>
      simp_all [isPendingWith, publish_completion]
  · intro pid m pub
    simp [publish_completion]
  · intro pid m
    simp [publish_completion]
  · intro lk pid res
    constructor <;> rfl

/-- Witness for C4: a superseded microphone publish (track already back to
`None`) whose engine call succeeded is unpublished and the state stays
`None`. -/
theorem C4_publish_lifecycle_witness :
    (publish_completion LocalTrack.None 0 (some 5)).1 = LocalTrack.None ∧
    (publish_completion LocalTrack.None 0 (some 5)).2.1 = true := by
  have h := C4_publish_lifecycle.1 LocalTrack.None 0 (some 5) (by decide)
  exact ⟨h.1, h.2.1 5 rfl⟩

/-! ### Claim C5 -/

/-- C5 counterexample: the claim states that leaving an already-offline
session has "no observable effect", but `Room::leave` emits `Event::Left`
before the offline check, so the event list is non-empty. -/
theorem C5_offline_leave_emits_left :
    roomOff.status.is_offline = true ∧ (roomOff.leave).2.1 ≠ ([] : List Event) := by
  decide

/-- C5 amended: leaving an already-offline session fails with the offline
error and performs no state mutation, but it does emit the `Left` event
(the emission precedes the offline check). -/
theorem C5_offline_leave_no_mutation (r : Room) (h : r.status.is_offline = true) :
    r.leave = (r, [Event.Left], false) := by
  simp [Room.leave, Room.leave_internal, h]

/-- Witness for C5: evaluated on a concrete offline room. -/
theorem C5_offline_leave_no_mutation_witness :
    roomOffW.leave = (roomOffW, [Event.Left], false) :=
  C5_offline_leave_no_mutation roomOffW (by decide)

/-! ### Claim C8 -/

/-- C8: while the room is online and the media session exists,
`unshare_screen` acts per the screen track's tri-state: `None` is the
"screen was not shared" error with the state untouched, `Pending` just
clears the pending state, `Published` unpublishes the engine track; in the
non-error cases the state afterwards is `None`. -/
theorem C8_unshare_screen_tristate (r : Room) (lk : LiveKitRoom)
    (hoff : r.status.is_offline = false) (hlk : r.live_kit = some lk) :
    (lk.screen_track = LocalTrack.None →
       r.unshare_screen = (r, some "screen was not shared", none)) ∧
    (∀ pid m, lk.screen_track = LocalTrack.Pending pid m →
       r.unshare_screen =
         ({ r with live_kit := some { lk with screen_track := LocalTrack.None } },
          none, none)) ∧
    (∀ pub m, lk.screen_track = LocalTrack.Published pub m →
       r.unshare_screen =
         ({ r with live_kit := some ({ lk with
              screen_track := LocalTrack.None
              room := lk.room.unpublish_track pub }) }, none, some pub)) := by
  refine ⟨?_, ?_, ?_⟩
  · intro h
    have hlk2 : ({ lk with screen_track := LocalTrack.None } : LiveKitRoom) = lk := by
      cases lk
      simp_all
    have hr : ({ r with live_kit := some lk } : Room) = r := by
      cases r
      simp_all
    simp [Room.unshare_screen, hoff, hlk, h, hlk2, hr]
  · intro pid m h
    simp [Room.unshare_screen, hoff, hlk, h]
  · intro pub m h
    simp [Room.unshare_screen, hoff, hlk, h]

/-- Witness for C8: unsharing a published screen track unpublishes
publication 4 and resets the track state. -/
theorem C8_unshare_screen_tristate_witness :
    roomScr.unshare_screen =
      ({ roomScr with live_kit := some ({ lkScr with
           screen_track := LocalTrack.None
           room := lkScr.room.unpublish_track 4 }) }, none, some 4) :=
  (C8_unshare_screen_tristate roomScr lkScr (by decide) rfl).2.2 4 false rfl

/-! ### Claim C9 -/

/-- C9: `share_project` on a project that already has a remote id returns
that id immediately, sends no server request and leaves the session state
untouched. -/
theorem C9_share_project_idempotent (r : Room) (p : Project) (pid : Nat)
    (h : p.remote_id = some pid) :
    r.share_project p = (r, false, some pid) := by
  simp [Room.share_project, h]

/-- Witness for C9: sharing an already-shared project (remote id 42). -/
theorem C9_share_project_idempotent_witness :
    roomA0.share_project { remote_id := some 42 } = (roomA0, false, some 42) :=
  C9_share_project_idempotent roomA0 { remote_id := some 42 } 42 rfl

/-! ### Helper lemmas: the merge itself never emits `Left` -/

theorem subscribe_video_no_left (r : Room) (pub : Nat) (sid : String) :
    Event.Left ∉ (r.subscribe_video pub sid).2 := by
  unfold Room.subscribe_video
  cases h : mapLookup pub r.remote_participants <;> simp

theorem subscribe_audio_no_left (r : Room) (pub : Nat) (sid : String) (pm : Bool) :
    Event.Left ∉ (r.subscribe_audio pub sid pm).2 := by
  unfold Room.subscribe_audio
  cases h : mapLookup pub r.remote_participants <;> simp

theorem fold_video_no_left (l : List (Nat × String)) :
    ∀ acc : Room × List Event, Event.Left ∉ acc.2 →
      Event.Left ∉ (l.foldl videoHydrateStep acc).2 := by
  induction l with
  | nil => intro acc h; exact h
  | cons t rest ih =>
    intro acc h
    rw [List.foldl_cons]
    apply ih
    unfold videoHydrateStep
    simp only [List.mem_append]
    rintro (h1 | h2)
    · exact h h1
    · exact subscribe_video_no_left _ _ _ h2

theorem fold_audio_no_left (l : List AudioPublication) :
    ∀ acc : Room × List Event, Event.Left ∉ acc.2 →
      Event.Left ∉ (l.foldl audioHydrateStep acc).2 := by
  induction l with
  | nil => intro acc h; exact h
  | cons t rest ih =>
    intro acc h
    rw [List.foldl_cons]
    apply ih
    unfold audioHydrateStep
    simp only [List.mem_append]
    rintro (h1 | h2)
    · exact h h1
    · exact subscribe_audio_no_left _ _ _ _ h2

theorem hydrate_no_left (r : Room) (events : List Event) (uid : Nat)
    (h : Event.Left ∉ events) : Event.Left ∉ (r.hydrate events uid).2 := by
  unfold Room.hydrate
  cases r.live_kit with
  | none => exact h
  | some lk =>
    apply fold_audio_no_left
    apply fold_video_no_left
    exact h

theorem applyParticipant_no_left (this : Room) (events : List Event)
    (p : ProtoParticipant) (u : User) (h : Event.Left ∉ events) :
    Event.Left ∉ (Room.applyParticipant this events p u).2 := by
  unfold Room.applyParticipant
  cases hp : p.peer_id with
  | none => exact h
  | some peer =>
    simp only []
    split
    · rename_i existing heq
      simp only [List.mem_append]
      rintro ((((h1 | h2) | h3) | h4))
      · exact h h1
      · simp only [List.mem_map] at h2
        obtain ⟨_, _, hbad⟩ := h2
        exact Event.noConfusion hbad
      · simp only [List.mem_map] at h3
        obtain ⟨_, _, hbad⟩ := h3
        exact Event.noConfusion hbad
      · split at h4 <;> simp_all
    · apply hydrate_no_left
      simp only [List.mem_append]
      rintro ((h1 | h2) | h3)
      · exact h h1
      · simp only [List.mem_map] at h2
        obtain ⟨_, _, hbad⟩ := h2
        exact Event.noConfusion hbad
      · simp only [List.mem_map] at h3
        obtain ⟨_, _, hbad⟩ := h3
        exact Event.noConfusion hbad

theorem applyParticipantList_no_left (l : List (ProtoParticipant × User)) :
    ∀ (this : Room) (events : List Event), Event.Left ∉ events →
      Event.Left ∉ (Room.applyParticipantList this events l).2 := by
  induction l with
  | nil => intro this events h; exact h
  | cons pu rest ih =>
    intro this events h
    obtain ⟨p, u⟩ := pu
    unfold Room.applyParticipantList
    exact ih _ _ (applyParticipant_no_left this events p u h)

theorem retainParticipants_no_left (puids : List Nat)
    (M : List (Nat × RemoteParticipant)) :
    Event.Left ∉ (retainParticipants puids M).2 := by
  induction M with
  | nil => simp [retainParticipants]
  | cons kp rest ih =>
    obtain ⟨k, p⟩ := kp
    unfold retainParticipants
    split
    · exact ih
    · simp only [List.mem_append]
      rintro (h1 | h2)
      · simp only [List.mem_map] at h1
        obtain ⟨_, _, hbad⟩ := h1
        exact Event.noConfusion hbad
      · exact ih h2

theorem apply_room_update_core_no_left (r : Room) (snap : ProtoRoom) (rr pr : Bool) :
    Event.Left ∉ (r.apply_room_update_core snap rr pr).2 := by
  unfold Room.apply_room_update_core
  cases rr with
  | true =>
    simp only [if_true, List.mem_append]
    rintro (h1 | h2)
    · exact applyParticipantList_no_left _ _ _ (by simp) h1
    · exact retainParticipants_no_left _ _ h2
  | false =>
    simp

/-! ### Claim C2 -/

/-- C2: the session auto-leaves at the end of a roster merge, and at the
completion of an outbound call, exactly when leave-on-empty is enabled, no
roster update is in flight, both rosters are empty and no call is pending;
`Left` is emitted only by that auto-leave. -/
theorem C2_auto_leave :
    (∀ (r : Room) (snap : ProtoRoom) (rr pr : Bool),
      Event.Left ∈ (r.apply_room_update snap rr pr).2 ↔
        ((r.apply_room_update_core snap rr pr).1.leave_when_empty = true ∧
         (r.apply_room_update_core snap rr pr).1.pending_room_update = false ∧
         (r.apply_room_update_core snap rr pr).1.pending_participants = [] ∧
         (r.apply_room_update_core snap rr pr).1.remote_participants = [] ∧
         (r.apply_room_update_core snap rr pr).1.pending_call_count = 0)) ∧
    (∀ r : Room,
      Event.Left ∈ (r.call_completed).2 ↔
        (r.leave_when_empty = true ∧ r.pending_room_update = false ∧
         r.pending_participants = [] ∧ r.remote_participants = [] ∧
         r.pending_call_count - 1 = 0)) := by
  constructor
  · intro r snap rr pr
    unfold Room.apply_room_update
    by_cases h : (r.apply_room_update_core snap rr pr).1.should_leave = true
    · simp only [h, if_true]
      unfold Room.should_leave at h
      simp only [Bool.and_eq_true, Bool.not_eq_true', List.isEmpty_iff,
        decide_eq_true_eq] at h
      simp only [Room.leave, List.mem_append, List.mem_singleton]
      constructor
      · intro _
        exact ⟨h.1.1.1.1, h.1.1.1.2, h.1.1.2, h.1.2, h.2⟩
      · intro _
        exact Or.inr trivial
    · simp only [Bool.not_eq_true] at h
      simp only [h, Bool.false_eq_true, if_false]
      constructor
      · intro hmem
        exact absurd hmem (apply_room_update_core_no_left r snap rr pr)
      · rintro ⟨h1, h2, h3, h4, h5⟩
        exfalso
        have : (r.apply_room_update_core snap rr pr).1.should_leave = true := by
          unfold Room.should_leave
          simp [h1, h2, h3, h4, h5]
        rw [this] at h
        exact Bool.noConfusion h
  · intro r
    unfold Room.call_completed
    by_cases h : ({ r with pending_call_count := r.pending_call_count - 1 } : Room).should_leave = true
    · simp only [h, if_true]
      unfold Room.should_leave at h
      simp only [Bool.and_eq_true, Bool.not_eq_true', List.isEmpty_iff,
        decide_eq_true_eq] at h
      simp only [Room.leave, List.mem_singleton]
      constructor
      · intro _
        exact ⟨h.1.1.1.1, h.1.1.1.2, h.1.1.2, h.1.2, h.2⟩
      · intro _
        trivial
    · simp only [Bool.not_eq_true] at h
      simp only [h, Bool.false_eq_true, if_false]
      constructor
      · intro hmem
        simp at hmem
      · rintro ⟨h1, h2, h3, h4, h5⟩
        exfalso
        have : ({ r with pending_call_count := r.pending_call_count - 1 } : Room).should_leave = true := by
          unfold Room.should_leave
          simp [h1, h2, h3, h4, h5]
        rw [this] at h
        exact Bool.noConfusion h

/-- Witness for C2: a leave-on-empty room whose last pending call completes
auto-leaves (emits `Left`), evaluated on a concrete room. -/
theorem C2_auto_leave_witness : Event.Left ∈ (roomCW.call_completed).2 :=
  (C2_auto_leave.2 roomCW).mpr (by decide)

/-! ### Helper lemmas: the merge never changes the room status -/

theorem subscribe_video_status (r : Room) (pub : Nat) (sid : String) :
    (r.subscribe_video pub sid).1.status = r.status := by
  unfold Room.subscribe_video
  cases h : mapLookup pub r.remote_participants <;> rfl

theorem subscribe_audio_status (r : Room) (pub : Nat) (sid : String) (pm : Bool) :
    (r.subscribe_audio pub sid pm).1.status = r.status := by
  unfold Room.subscribe_audio
  cases h : mapLookup pub r.remote_participants <;> rfl

theorem fold_video_status (l : List (Nat × String)) :
    ∀ acc : Room × List Event, (l.foldl videoHydrateStep acc).1.status = acc.1.status := by
  induction l with
  | nil => intro acc; rfl
  | cons t rest ih =>
    intro acc
    rw [List.foldl_cons, ih]
    exact subscribe_video_status _ _ _

theorem fold_audio_status (l : List AudioPublication) :
    ∀ acc : Room × List Event, (l.foldl audioHydrateStep acc).1.status = acc.1.status := by
  induction l with
  | nil => intro acc; rfl
  | cons t rest ih =>
    intro acc
    rw [List.foldl_cons, ih]
    exact subscribe_audio_status _ _ _ _

theorem hydrate_status (r : Room) (events : List Event) (uid : Nat) :
    (r.hydrate events uid).1.status = r.status := by
  unfold Room.hydrate
  cases r.live_kit with
  | none => rfl
  | some lk => rw [fold_audio_status, fold_video_status]

theorem applyParticipant_status (this : Room) (events : List Event)
    (p : ProtoParticipant) (u : User) :
    (Room.applyParticipant this events p u).1.status = this.status := by
  unfold Room.applyParticipant
  cases hp : p.peer_id with
  | none => rfl
  | some peer =>
    simp only []
    split
    · rfl
    · exact hydrate_status _ _ _

theorem applyParticipantList_status (l : List (ProtoParticipant × User)) :
    ∀ (this : Room) (events : List Event),
      (Room.applyParticipantList this events l).1.status = this.status := by
  induction l with
  | nil => intro this events; rfl
  | cons pu rest ih =>
    intro this events
    obtain ⟨p, u⟩ := pu
    unfold Room.applyParticipantList
    rw [ih, applyParticipant_status]

theorem apply_room_update_core_status (r : Room) (snap : ProtoRoom) (rr pr : Bool) :
    (r.apply_room_update_core snap rr pr).1.status = r.status := by
  unfold Room.apply_room_update_core
  cases rr with
  | false => cases pr <;> rfl
  | true => cases pr <;> exact applyParticipantList_status _ _ _

/-! ### Helper lemma: the retry budget bounds the attempts -/

theorem client_reconnection_attempts (future : List ConnStatus) :
    ∀ (remaining : Nat) (cur : ConnStatus) (rejoins : List Bool),
      (client_reconnection remaining cur future rejoins).2 ≤ remaining := by
  induction future with
  | nil =>
    intro remaining cur rejoins
    unfold client_reconnection
    split
    · simp
    · rename_i h0
      split
      · cases rejoins with
        | nil => simp
        | cons ok rest =>
          cases ok with
          | false => simp; omega
          | true => simp; omega
      · split
        · simp
        · simp
  | cons s fs ih =>
    intro remaining cur rejoins
    unfold client_reconnection
    split
    · simp
    · rename_i h0
      split
      · cases rejoins with
        | nil => simp
        | cons ok rest =>
          cases ok with
          | false =>
            have hle := ih (remaining - 1) s rest
            simp only [Bool.false_eq_true, if_false]
            omega
          | true => simp; omega
      · split
        · simp
        · exact ih remaining s rejoins

/-! ### Claim C3 -/

/-- C3: the reconnection supervisor makes at most 3 rejoin attempts, the
attempt sequence is raced against the fixed 30-second `RECONNECT_TIMEOUT`
(an undecided race means the timer fired first), an explicitly signed-out
status stops the cycle immediately with no attempt, any unsuccessful
outcome leaves the room and surfaces the terminal
"client failed to re-establish connection" error, and a successful rejoin
restores `Online` (unless the merged snapshot itself triggers the
auto-leave) and returns to watching. -/
theorem C3_reconnect_supervisor :
    RECONNECT_TIMEOUT = 30 ∧
    (∀ (cur : ConnStatus) (future : List ConnStatus) (rejoins : List Bool),
       (client_reconnection 3 cur future rejoins).2 ≤ 3) ∧
    (∀ (future : List ConnStatus) (rejoins : List Bool),
       client_reconnection 3 ConnStatus.signedOut future rejoins = (some false, 0)) ∧
    (∀ r : Room, r.maintain_connection_cycle (some true) = (r, [], none)) ∧
    (∀ (r : Room) (out : Option Bool), out ≠ some true →
       r.maintain_connection_cycle out =
         ((r.leave).1, [Event.Left], some reconnectErrorMessage)) ∧
    reconnectErrorMessage =
      "can't reconnect to room: " ++ "client failed to re-establish connection" ∧
    (∀ (r : Room) (snap : ProtoRoom) (rr pr : Bool),
       (Room.rejoin_apply r snap rr pr).1.status = RoomStatus.Online ∨
         Event.Left ∈ (Room.rejoin_apply r snap rr pr).2) := by
  refine ⟨rfl, ?_, ?_, ?_, ?_, rfl, ?_⟩
  · intro cur future rejoins
    exact client_reconnection_attempts future 3 cur rejoins
  · intro future rejoins
    unfold client_reconnection
    rfl
  · intro r
    rfl
  · intro r out h
    match out with
    | none => rfl
    | some false => rfl
    | some true => exact absurd rfl h
  · intro r snap rr pr
    unfold Room.rejoin_apply Room.apply_room_update
    by_cases h :
        (({ r with status := RoomStatus.Online } : Room).apply_room_update_core snap rr pr).1.should_leave = true
    · right
      simp only [h, if_true]
      simp [Room.leave]
    · left
      simp only [Bool.not_eq_true] at h
      simp only [h, Bool.false_eq_true, if_false]
      exact apply_room_update_core_status _ _ _ _

/-- Witness for C3: three failed attempts over a connected stream stay
within the budget, and an undecided race (timer fired) on a concrete room
leaves it with the terminal error. -/
theorem C3_reconnect_supervisor_witness :
    (client_reconnection 3 ConnStatus.connected
        [ConnStatus.connected, ConnStatus.connected] [false, false, false]).2 ≤ 3 ∧
    roomOff.maintain_connection_cycle none =
      ((roomOff.leave).1, [Event.Left], some reconnectErrorMessage) :=
  ⟨C3_reconnect_supervisor.2.1 _ _ _,
   C3_reconnect_supervisor.2.2.2.2.1 roomOff none (by decide)⟩

/-! ### Helper lemmas for the deafen subscription toggling -/

theorem memb_iff {α : Type} [DecidableEq α] (x : α) (l : List α) :
    memb x l = true ↔ x ∈ l := by
  induction l with
  | nil => simp [memb]
  | cons y rest ih =>
    unfold memb
    by_cases h : y = x
    · subst h
      simp
    · have h' : ¬(x = y) := fun hx => h hx.symm
      simp [h, ih, h']

theorem map_congr_mem {α β : Type} (l : List α) (f g : α → β)
    (h : ∀ a ∈ l, f a = g a) : l.map f = l.map g := by
  induction l with
  | nil => rfl
  | cons a rest ih =>
    simp only [List.map_cons]
    rw [h a (by simp), ih fun x hx => h x (by simp [hx])]

/-- Folding `set_enabled_for` over the roster equals one map over the
engine's publications, flipping exactly the publications whose publisher is
a roster user. -/
theorem set_enabled_foldl (b : Bool) (parts : List (Nat × RemoteParticipant)) :
    ∀ e : EngineRoom,
      parts.foldl (fun e kp => EngineRoom.set_enabled_for e kp.2.user.id b) e =
        { e with audio_publications :=
            (e.audio_publications.map fun p =>
              if memb p.publisher_id (parts.map fun kp => kp.2.user.id) then
                { p with enabled := b }
              else p) } := by
  induction parts with
  | nil =>
    intro e
    cases e
    simp [memb]
  | cons kp rest ih =>
    intro e
    rw [List.foldl_cons, ih]
    unfold EngineRoom.set_enabled_for
    simp only [List.map_cons, List.map_map]
    congr 1
    apply map_congr_mem
    intro p _
    obtain ⟨pid, psid, pen, pmu⟩ := p
    simp only [Function.comp]
    by_cases hpu : pid = kp.2.user.id
    · simp [memb, hpu]
    · have hu : ¬(kp.2.user.id = pid) := fun hx => hpu hx.symm
      simp [memb, hpu, hu]

/-- Every publication of a mapped publications list whose publisher is in
the flipped id set carries the new `enabled` bit. -/
theorem mapped_enabled (b : Bool) (ids : List Nat) (l : List AudioPublication) :
    ∀ p ∈ (l.map fun q =>
        if memb q.publisher_id ids then { q with enabled := b } else q),
      p.publisher_id ∈ ids → p.enabled = b := by
  intro p hp hmem
  simp only [List.mem_map] at hp
  obtain ⟨q, hq, hpq⟩ := hp
  subst hpq
  by_cases h : memb q.publisher_id ids = true
  · simp [h]
  · by_cases h2 : memb q.publisher_id ids = true
    · exact absurd h2 h
    · rw [if_neg (by simp [h])] at hmem ⊢
      exact absurd ((memb_iff _ _).mpr hmem) h

/-! ### Claim C7 -/

/-- C7 counterexample: with no microphone track (the user never shared the
mic, e.g. because of mute-on-join), `toggle_deafen` still flips the
deafened flag but then fails inside `set_mute` and never reaches the
subscription loop: the session ends up deafened with remote participant
2's audio publication still enabled, contradicting the claim that
deafening "disables every remote audio track subscription". -/
theorem C7_deafen_without_mic :
    (roomC7.toggle_deafen).2 = false ∧
    ((roomC7.toggle_deafen).1.live_kit.map fun lk => lk.deafened) = some true ∧
    ((roomC7.toggle_deafen).1.live_kit.map fun lk =>
        lk.room.audio_publications.map fun p => p.enabled) = some [true] := by
  decide

/-- C7 amended: `toggle_deafen` always flips the deafened flag.  With a
microphone track (Pending or Published) it succeeds: deafening mutes the
microphone (already-muted stays muted) and disables every roster audio
publication; un-deafening re-enables them and restores the microphone to
the manual mute state: it stays muted exactly when `muted_by_user` was set
before deafening.  With no microphone track the track check inside
`set_mute` decides the outcome: deafening — and un-deafening with
`muted_by_user` clear — fails there and leaves the engine publications
untouched, while un-deafening with `muted_by_user` set skips `set_mute`
entirely, succeeds, and re-enables the roster publications. -/
theorem C7_toggle_deafen_behavior (r : Room) (lk : LiveKitRoom)
    (hlk : r.live_kit = some lk) :
    (lk.microphone_track ≠ LocalTrack.None →
      ∃ lk', (r.toggle_deafen).1.live_kit = some lk' ∧ (r.toggle_deafen).2 = true ∧
        lk'.deafened = (!lk.deafened) ∧
        (lk.deafened = false →
          lk'.microphone_track.muted_flag = some true ∧
          ∀ p ∈ lk'.room.audio_publications,
            p.publisher_id ∈ (r.remote_participants.map fun kp => kp.2.user.id) →
              p.enabled = false) ∧
        (lk.deafened = true →
          lk'.microphone_track.muted_flag =
            (if lk.muted_by_user then lk.microphone_track.muted_flag else some false) ∧
          ∀ p ∈ lk'.room.audio_publications,
            p.publisher_id ∈ (r.remote_participants.map fun kp => kp.2.user.id) →
              p.enabled = true)) ∧
    (lk.microphone_track = LocalTrack.None →
      ∃ lk', (r.toggle_deafen).1.live_kit = some lk' ∧
        lk'.deafened = (!lk.deafened) ∧
        lk'.microphone_track = LocalTrack.None ∧
        (lk.deafened = true ∧ lk.muted_by_user = true →
          (r.toggle_deafen).2 = true ∧
          ∀ p ∈ lk'.room.audio_publications,
            p.publisher_id ∈ (r.remote_participants.map fun kp => kp.2.user.id) →
              p.enabled = true) ∧
        (¬(lk.deafened = true ∧ lk.muted_by_user = true) →
          (r.toggle_deafen).2 = false ∧ lk'.room = lk.room)) := by
  obtain ⟨eng, scr, mic, mbu, deaf, spk, npid⟩ := lk
  constructor
  case right =>
    intro hmic
    cases mic with
    | Pending pid m => exact absurd hmic (by simp)
    | Published pub m => exact absurd hmic (by simp)
    | None =>
      cases deaf with
      | false =>
        unfold Room.toggle_deafen LiveKitRoom.set_mute
        rw [hlk]
        simp only [Bool.not_false, Bool.not_true, Bool.true_or, if_true]
        refine ⟨_, rfl, rfl, rfl, ?_, ?_⟩
        · rintro ⟨h1, _⟩
          exact Bool.noConfusion h1
        · intro _
          exact ⟨trivial, rfl⟩
      | true =>
        cases mbu with
        | true =>
          unfold Room.toggle_deafen
          rw [hlk]
          simp only [Bool.not_false, Bool.not_true, Bool.false_or, if_true, if_false,
            Bool.false_eq_true]
          refine ⟨_, rfl, rfl, rfl, ?_, ?_⟩
          · intro _
            refine ⟨trivial, ?_⟩
            rw [set_enabled_foldl]
            exact mapped_enabled true _ _
          · intro hcon
            exact absurd ⟨trivial, trivial⟩ hcon
        | false =>
          unfold Room.toggle_deafen LiveKitRoom.set_mute
          rw [hlk]
          simp only [Bool.not_false, Bool.not_true, Bool.false_or, if_true, if_false,
            Bool.false_eq_true]
          refine ⟨_, rfl, rfl, rfl, ?_, ?_⟩
          · rintro ⟨_, h2⟩
            exact h2.elim
          · intro _
            exact ⟨trivial, rfl⟩
  case left =>
    intro hmic
    cases mic with
    | None => exact absurd rfl hmic
    | Pending pid m =>
      cases deaf with
      | false =>
        unfold Room.toggle_deafen LiveKitRoom.set_mute
        rw [hlk]
        simp only [Bool.not_false, Bool.not_true, Bool.true_or, if_true,
          LocalTrack.muted_flag]
        refine ⟨_, rfl, trivial, rfl, ?_, ?_⟩
        · intro _
          refine ⟨rfl, ?_⟩
          rw [set_enabled_foldl]
          exact mapped_enabled false _ _
        · intro h
          exact Bool.noConfusion h
      | true =>
        cases mbu with
        | true =>
          unfold Room.toggle_deafen LiveKitRoom.set_mute
          rw [hlk]
          simp only [Bool.not_false, Bool.not_true, Bool.false_or, if_true, if_false,
            Bool.false_eq_true, LocalTrack.muted_flag]
          refine ⟨_, rfl, trivial, rfl, ?_, ?_⟩
          · intro h
            exact Bool.noConfusion h
          · intro _
            refine ⟨rfl, ?_⟩
            rw [set_enabled_foldl]
            exact mapped_enabled true _ _
        | false =>
          unfold Room.toggle_deafen LiveKitRoom.set_mute
          rw [hlk]
          simp only [Bool.not_false, Bool.not_true, Bool.false_or, if_true, if_false,
            Bool.false_eq_true, LocalTrack.muted_flag]
          refine ⟨_, rfl, trivial, rfl, ?_, ?_⟩
          · intro h
            exact Bool.noConfusion h
          · intro _
            refine ⟨rfl, ?_⟩
            rw [set_enabled_foldl]
            exact mapped_enabled true _ _
    | Published pub m =>
      cases deaf with
      | false =>
        unfold Room.toggle_deafen LiveKitRoom.set_mute
        rw [hlk]
        simp only [Bool.not_false, Bool.not_true, Bool.true_or, if_true,
          LocalTrack.muted_flag]
        refine ⟨_, rfl, trivial, rfl, ?_, ?_⟩
        · intro _
          refine ⟨rfl, ?_⟩
          rw [set_enabled_foldl]
          exact mapped_enabled false _ _
        · intro h
          exact Bool.noConfusion h
      | true =>
        cases mbu with
        | true =>
          unfold Room.toggle_deafen LiveKitRoom.set_mute
          rw [hlk]
          simp only [Bool.not_false, Bool.not_true, Bool.false_or, if_true, if_false,
            Bool.false_eq_true, LocalTrack.muted_flag]
          refine ⟨_, rfl, trivial, rfl, ?_, ?_⟩
          · intro h
            exact Bool.noConfusion h
          · intro _
            refine ⟨rfl, ?_⟩
            rw [set_enabled_foldl]
            exact mapped_enabled true _ _
        | false =>
          unfold Room.toggle_deafen LiveKitRoom.set_mute
          rw [hlk]
          simp only [Bool.not_false, Bool.not_true, Bool.false_or, if_true, if_false,
            Bool.false_eq_true, LocalTrack.muted_flag]
          refine ⟨_, rfl, trivial, rfl, ?_, ?_⟩
          · intro h
            exact Bool.noConfusion h
          · intro _
            refine ⟨rfl, ?_⟩
            rw [set_enabled_foldl]
            exact mapped_enabled true _ _

/-- Witness for C7: deafening `roomC7b` (published unmuted mic, remote
participant 2 with an enabled publication) mutes the mic and deafens. -/
theorem C7_toggle_deafen_behavior_witness :
    ∃ lk', (roomC7b.toggle_deafen).1.live_kit = some lk' ∧
      lk'.deafened = true ∧ lk'.microphone_track.muted_flag = some true := by
  obtain ⟨lk', h1, _, h3, h4, _⟩ :=
    (C7_toggle_deafen_behavior roomC7b lkMic rfl).1 (by decide)
  exact ⟨lk', h1, h3, (h4 rfl).1⟩

/-! ### Claim C10 -/

/-- C10: `toggle_mute` with a `None` microphone track does not report a
"not shared" error; it delegates to `share_microphone` (so the track ends
up `Pending` and initially unmuted); with a `Pending` or `Published` track
it flips the mute flag and records the new state in `muted_by_user`. -/
theorem C10_toggle_mute_behavior (r : Room) (lk : LiveKitRoom) (moj : Bool)
    (hlk : r.live_kit = some lk) :
    (lk.microphone_track = LocalTrack.None → r.status.is_offline = false →
      (r.toggle_mute moj).2 = true ∧
      ((r.toggle_mute moj).1.live_kit.map fun l => l.microphone_track) =
        some (LocalTrack.Pending lk.next_publish_id false)) ∧
    (∀ m, lk.microphone_track.muted_flag = some m →
      (r.toggle_mute moj).2 = true ∧
      ((r.toggle_mute moj).1.live_kit.map fun l => l.microphone_track.muted_flag) =
        some (some (!m)) ∧
      ((r.toggle_mute moj).1.live_kit.map fun l => l.muted_by_user) = some (!m)) := by
  obtain ⟨eng, scr, mic, mbu, deaf, spk, npid⟩ := lk
  constructor
  · intro hmic hoff
    cases mic with
    | None =>
      unfold Room.toggle_mute Room.share_microphone Room.is_sharing_mic
      rw [hlk]
      simp [hoff]
    | Pending pid m => exact absurd hmic (by simp)
    | Published pub m => exact absurd hmic (by simp)
  · intro m hm
    cases mic with
    | None => exact absurd hm (by simp [LocalTrack.muted_flag])
    | Pending pid mm =>
      have hmm : mm = m := by simpa [LocalTrack.muted_flag] using hm
      subst hmm
      cases mm <;> cases deaf <;>
        (unfold Room.toggle_mute Room.is_muted Room.toggle_deafen
         rw [hlk]
         simp [LiveKitRoom.set_mute, LocalTrack.muted_flag])
    | Published pub mm =>
      have hmm : mm = m := by simpa [LocalTrack.muted_flag] using hm
      subst hmm
      cases mm <;> cases deaf <;>
        (unfold Room.toggle_mute Room.is_muted Room.toggle_deafen
         rw [hlk]
         simp [LiveKitRoom.set_mute, LocalTrack.muted_flag])

/-- Witness for C10: toggling mute on `roomC7` (no mic track, online) starts
sharing the microphone with publish id 0, unmuted. -/
theorem C10_toggle_mute_behavior_witness :
    (roomC7.toggle_mute false).2 = true ∧
    ((roomC7.toggle_mute false).1.live_kit.map fun l => l.microphone_track) =
      some (LocalTrack.Pending lkNoMic.next_publish_id false) :=
  (C10_toggle_mute_behavior roomC7 lkNoMic false rfl).1 rfl (by decide)

/-! ### Helper lemmas for the identical-snapshot merge -/

theorem memb_nil {α : Type} [DecidableEq α] (x : α) :
    memb x ([] : List α) = false := rfl

theorem memb_cons {α : Type} [DecidableEq α] (x y : α) (l : List α) :
    memb x (y :: l) = if y = x then true else memb x l := rfl

theorem memb_append {α : Type} [DecidableEq α] (x : α) (l₁ l₂ : List α) :
    memb x (l₁ ++ l₂) = (memb x l₁ || memb x l₂) := by
  induction l₁ with
  | nil => simp [memb_nil]
  | cons y rest ih =>
    simp only [List.cons_append, memb_cons, ih]
    by_cases h : y = x <;> simp [h]

theorem memb_insertId_self (x : Nat) (l : List Nat) : memb x (insertId x l) = true := by
  unfold insertId
  by_cases h : memb x l = true
  · simp [h]
  · simp [h, memb_append, memb]

theorem memb_insertId_mono (x y : Nat) (l : List Nat) (h : memb x l = true) :
    memb x (insertId y l) = true := by
  unfold insertId
  by_cases hy : memb y l = true
  · simp [hy, h]
  · simp [hy, memb_append, h]

theorem memb_foldl_insert (es : List (Nat × RemoteParticipant)) :
    ∀ (init : List Nat) (k : Nat),
      ((∃ p, (k, p) ∈ es) ∨ memb k init = true) →
      memb k (es.foldl (fun acc kp => insertId kp.1 acc) init) = true := by
  induction es with
  | nil =>
    intro init k h
    rcases h with ⟨p, hp⟩ | h
    · exact absurd hp (List.not_mem_nil _)
    · exact h
  | cons kp rest ih =>
    intro init k h
    rw [List.foldl_cons]
    apply ih
    rcases h with ⟨p, hp⟩ | h
    · rcases List.mem_cons.mp hp with heq | hmem
      · right
        have hk : kp.1 = k := by rw [← heq]
        rw [hk]
        exact memb_insertId_self k init
      · exact Or.inl ⟨p, hmem⟩
    · exact Or.inr (memb_insertId_mono k kp.1 init h)

theorem retain_all (puids : List Nat) (M : List (Nat × RemoteParticipant))
    (h : ∀ kp ∈ M, memb kp.1 puids = true) :
    retainParticipants puids M = (M, []) := by
  induction M with
  | nil => rfl
  | cons kp rest ih =>
    obtain ⟨k, p⟩ := kp
    unfold retainParticipants
    rw [ih fun x hx => h x (List.mem_cons_of_mem _ hx)]
    rw [if_pos (h (k, p) (List.mem_cons_self _ _))]

theorem mapLookup_of_mem_nodup {α : Type} (k : Nat) (v : α)
    (M : List (Nat × α)) (hnd : (M.map Prod.fst).Nodup) (hmem : (k, v) ∈ M) :
    mapLookup k M = some v := by
  induction M with
  | nil => exact absurd hmem (List.not_mem_nil _)
  | cons kp rest ih =>
    obtain ⟨k', v'⟩ := kp
    simp only [List.map_cons, List.nodup_cons] at hnd
    obtain ⟨hk', hnd'⟩ := hnd
    unfold mapLookup
    rcases List.mem_cons.mp hmem with heq | hmem'
    · rw [Prod.mk.injEq] at heq
      obtain ⟨hk, hv⟩ := heq
      subst hk
      subst hv
      rw [if_pos rfl]
    · have hne : k' ≠ k := by
        intro he
        subst he
        exact hk' (List.mem_map.mpr ⟨(k', v), hmem', rfl⟩)
      rw [if_neg hne]
      exact ih hnd' hmem'

theorem mapUpdate_eq_self {α : Type} (k : Nat) (f : α → α) (M : List (Nat × α)) (v : α)
    (hl : mapLookup k M = some v) (hf : f v = v) :
    mapUpdate k f M = M := by
  induction M with
  | nil => rfl
  | cons kp rest ih =>
    obtain ⟨k', v'⟩ := kp
    unfold mapUpdate
    unfold mapLookup at hl
    by_cases h : k' = k
    · rw [if_pos h] at hl ⊢
      injection hl with hv
      rw [hv, hf]
    · rw [if_neg h] at hl ⊢
      rw [ih hl]

theorem position_eq_none {α : Type} (p : α → Bool) (l : List α)
    (h : ∀ a ∈ l, p a = false) : position p l = none := by
  induction l with
  | nil => rfl
  | cons a rest ih =>
    unfold position
    simp [h a (List.mem_cons_self _ _),
      ih fun x hx => h x (List.mem_cons_of_mem _ hx)]

theorem memb_dedupL {α : Type} [DecidableEq α] (x : α) (l : List α) :
    memb x (dedupL l) = memb x l := by
  induction l with
  | nil => rfl
  | cons y rest ih =>
    unfold dedupL
    by_cases hy : memb y rest = true
    · rw [if_pos hy, ih, memb_cons]
      by_cases hxy : y = x
      · subst hxy
        simp [hy]
      · rw [if_neg hxy]
    · rw [if_neg hy, memb_cons, memb_cons, ih]

theorem filter_eq_nil_of_false {α : Type} (p : α → Bool) (l : List α)
    (h : ∀ a ∈ l, p a = false) : l.filter p = [] := by
  induction l with
  | nil => rfl
  | cons a rest ih =>
    simp [List.filter_cons, h a (by simp), ih fun x hx => h x (by simp [hx])]

theorem filter_memb_nil (l : List Nat) :
    (l.filter fun jp => !(memb jp ([] : List Nat))) = l := by
  induction l with
  | nil => rfl
  | cons a rest ih => simp [List.filter_cons, memb, ih]

theorem map_user_eta (P : List User) : (P.map User.id).map User.mk = P := by
  induction P with
  | nil => rfl
  | cons u rest ih =>
    obtain ⟨uid⟩ := u
    simp [ih]

/-- Merging a roster entry that is already present verbatim (same peer id,
same projects, same location) only inserts the user id into
`participant_user_ids`: no event is emitted and no other field moves. -/
theorem applyOne_identity (M : List (Nat × RemoteParticipant))
    (hnd : (M.map Prod.fst).Nodup) (k : Nat) (p : RemoteParticipant)
    (hmem : (k, p) ∈ M) (this : Room) (hM : this.remote_participants = M)
    (events : List Event) :
    Room.applyParticipant this events (rosterEntryToProto (k, p)) (User.mk k) =
      ({ this with participant_user_ids := insertId k this.participant_user_ids },
       events) := by
  have hlook : mapLookup k M = some p := mapLookup_of_mem_nodup k p M hnd hmem
  have hshared : (p.projects.filter fun pr =>
      !(memb pr.id (dedupL (p.projects.map fun pr2 => pr2.id)))) = [] := by
    apply filter_eq_nil_of_false
    intro a ha
    have hmm : memb a.id (dedupL (p.projects.map fun pr2 => pr2.id)) = true := by
      rw [memb_dedupL]
      exact (memb_iff _ _).mpr (List.mem_map.mpr ⟨a, ha, rfl⟩)
    simp [hmm]
  have hunshared : ((dedupL (p.projects.map fun pr2 => pr2.id)).filter fun i =>
      !(memb i (dedupL (p.projects.map fun pr2 => pr2.id)))) = [] := by
    apply filter_eq_nil_of_false
    intro a ha
    simp [(memb_iff _ _).mpr ha]
  have hupd : mapUpdate k
      (fun ex =>
        { ex with projects := p.projects, peer_id := p.peer_id, location := p.location })
      M = M := by
    apply mapUpdate_eq_self k _ M p hlook
    rfl
  unfold Room.applyParticipant rosterEntryToProto
  simp only [hM, hlook, Option.elim, Option.getD_some, hshared, hunshared,
    filter_memb_nil, List.map_nil, List.append_nil, hupd, if_pos]

/-- Merging a list of verbatim roster entries only accumulates their user
ids into `participant_user_ids`. -/
theorem applyList_identity (M : List (Nat × RemoteParticipant))
    (hnd : (M.map Prod.fst).Nodup) (es : List (Nat × RemoteParticipant)) :
    (∀ e ∈ es, e ∈ M) →
      ∀ this : Room, this.remote_participants = M →
      ∀ events : List Event,
      Room.applyParticipantList this events
          (es.map fun kp => (rosterEntryToProto kp, User.mk kp.1)) =
        ({ this with participant_user_ids :=
            (es.foldl (fun acc kp => insertId kp.1 acc) this.participant_user_ids) },
         events) := by
  induction es with
  | nil =>
    intro _ this hM events
    rfl
  | cons kp rest ih =>
    intro hsub this hM events
    obtain ⟨k, p⟩ := kp
    simp only [List.map_cons]
    unfold Room.applyParticipantList
    rw [applyOne_identity M hnd k p (hsub _ (by simp)) this hM events]
    dsimp only
    rw [ih (fun e he => hsub e (by simp [he]))
        ({ this with participant_user_ids := insertId k this.participant_user_ids })
        hM events]
    rfl

/-- A merge of an identical snapshot computes `identicalMerged` and emits
no events before the auto-leave check. -/
theorem core_identical (r : Room) (followers : List ProtoFollower)
    (hnd : (r.remote_participants.map Prod.fst).Nodup)
    (hlocal : ∀ kp ∈ r.remote_participants, kp.1 ≠ r.client_user_id) :
    r.apply_room_update_core (identicalSnapshot r followers) true true =
      (identicalMerged r followers, []) := by
  have hpos : position (fun pp => pp.user_id = r.client_user_id)
      (r.remote_participants.map rosterEntryToProto) = none := by
    apply position_eq_none
    intro a ha
    simp only [List.mem_map] at ha
    obtain ⟨kp, hkp, hh⟩ := ha
    subst hh
    simp [rosterEntryToProto, hlocal kp hkp]
  have hpairs : ((r.remote_participants.map rosterEntryToProto).map
        fun pp => (pp, User.mk pp.user_id)) =
      r.remote_participants.map fun kp => (rosterEntryToProto kp, User.mk kp.1) := by
    rw [List.map_map]
    apply map_congr_mem
    intro kp _
    rfl
  have happly := applyList_identity r.remote_participants hnd r.remote_participants
    (fun e he => he)
    ({ r with pending_room_update := true, participant_user_ids := [], local_participant := { r.local_participant with projects := [] } })
    rfl []
  have hall : ∀ kp ∈ r.remote_participants,
      memb kp.1 (r.remote_participants.foldl (fun acc kp => insertId kp.1 acc) []) = true := by
    intro kp hkp
    exact memb_foldl_insert r.remote_participants [] kp.1 (Or.inl ⟨kp.2, hkp⟩)
  have hret := retain_all
    (r.remote_participants.foldl (fun acc kp => insertId kp.1 acc) [])
    r.remote_participants hall
  unfold Room.apply_room_update_core extractLocal identicalSnapshot identicalMerged
  dsimp only
  rw [hpos]
  dsimp only
  rw [hpairs, happly]
  dsimp only
  rw [hret]
  dsimp only
  rw [map_user_eta]
  rfl

/-! ### Claim C6 -/

/-- C6 counterexample: applying a snapshot identical to the current
(empty) roster of a leave-on-empty room emits `Left` — the merge triggers
the auto-leave, so "no event is produced by the merge" is false. -/
theorem C6_identical_empty_emits_left :
    (roomEmptyLWE.apply_room_update (identicalSnapshot roomEmptyLWE []) true true).2 =
      [Event.Left] ∧
    (roomEmptyLWE.apply_room_update (identicalSnapshot roomEmptyLWE []) true true).2 ≠
      ([] : List Event) := by
  decide

/-- C6 amended: applying a snapshot identical to the current roster emits
no diff events (no ParticipantLocationChanged, RemoteProjectShared,
RemoteProjectUnshared or track events); the only possible event is the
`Left` emitted by the auto-leave when the emptiness condition holds, and
when it does not hold the merge emits nothing at all. -/
theorem C6_identical_snapshot_events (r : Room) (followers : List ProtoFollower)
    (hnd : (r.remote_participants.map Prod.fst).Nodup)
    (hlocal : ∀ kp ∈ r.remote_participants, kp.1 ≠ r.client_user_id) :
    (r.apply_room_update (identicalSnapshot r followers) true true).2 =
      (if r.leave_when_empty && r.pending_participants.isEmpty &&
          r.remote_participants.isEmpty && decide (r.pending_call_count = 0)
       then [Event.Left] else []) := by
  unfold Room.apply_room_update
  rw [core_identical r followers hnd hlocal]
  have hsl : (identicalMerged r followers).should_leave =
      (r.leave_when_empty && r.pending_participants.isEmpty &&
        r.remote_participants.isEmpty && decide (r.pending_call_count = 0)) := by
    unfold Room.should_leave identicalMerged
    dsimp only
    simp only [Bool.not_false, Bool.and_true]
  dsimp only
  rw [hsl]
  by_cases hc : (r.leave_when_empty && r.pending_participants.isEmpty &&
      r.remote_participants.isEmpty && decide (r.pending_call_count = 0)) = true
  · rw [if_pos hc, if_pos hc]
    rfl
  · rw [if_neg hc, if_neg hc]

/-- Witness for C6: a room holding exactly remote participant 2 merged
with its own snapshot emits nothing. -/
theorem C6_identical_snapshot_events_witness :
    (roomIdent.apply_room_update (identicalSnapshot roomIdent []) true true).2 =
      ([] : List Event) := by
  have h := C6_identical_snapshot_events roomIdent [] (by decide) (by decide)
  simpa using h

end ZedCall
